import Mathlib

/-!
Shallow embedding of the content-extraction engine of the
`mcp-universal-crawler` repository (`src/futurepedia_mcp/server.py`).

External libraries (`requests`, `BeautifulSoup`, `pypdf`, `python-docx`,
`urllib.parse.urljoin`, `xml.etree.ElementTree` parsing) are modelled as
abstract inputs: a `Soup` value records the answers the BeautifulSoup query
API would give on the parsed document, an `XNode` tree models the parsed
XML element tree, the per-page / per-paragraph texts that pypdf and
python-docx would produce are inputs, and `urljoin` is a function
parameter.  Everything the repository's own code does with those answers
(ordering of fallbacks, loops, dedup, truncation, clamping, dispatch) is
translated faithfully below.
-/

namespace Crawler

/-- Python `or` on strings: the first operand when non-empty, else the second. -/
def pyOr (a b : String) : String :=
  if a = "" then b else a

/-- Whitespace class of Python's regex `\s` restricted to ASCII:
space, tab, newline, carriage return, vertical tab, form feed. -/
def isPySpace (c : Char) : Bool :=
  c = ' ' || c = '\t' || c = '\n' || c = '\r' || c = '\x0b' || c = '\x0c'

/-- Python `str.lower()` (ASCII case folding, which covers every input these
theorems evaluate). -/
def pyLower (s : String) : String :=
  String.mk (s.data.map Char.toLower)

/-- Python `str.strip()`: drop leading and trailing whitespace. -/
def pyStrip (s : String) : String :=
  String.mk (((s.data.dropWhile isPySpace).reverse.dropWhile isPySpace).reverse)

/-- Whether the first list is an initial segment of the second. -/
def isPrefixList : List Char → List Char → Bool
  | [], _ => true
  | _ :: _, [] => false
  | a :: as, b :: bs => a = b && isPrefixList as bs

/-- Python `str.startswith`. -/
def pyStartsWith (s needle : String) : Bool :=
  isPrefixList needle.data s.data

/-- Python `str.endswith`. -/
def pyEndsWith (s needle : String) : Bool :=
  isPrefixList needle.data.reverse s.data.reverse

/-- Whether `pat` occurs as a contiguous sublist of `hay`. -/
def containsSub (hay pat : List Char) : Bool :=
  match hay with
  | [] => isPrefixList pat []
  | _ :: rest => isPrefixList pat hay || containsSub rest pat

/-- Python `"needle" in hay`. -/
def strContains (hay needle : String) : Bool :=
  containsSub hay.data needle.data

/-- The characters of `hay` before the first occurrence of `pat`:
Python `hay.split(pat)[0]`. -/
def beforeSub (pat : List Char) : List Char → List Char
  | [] => []
  | c :: rest =>
    if isPrefixList pat (c :: rest) then []
    else c :: beforeSub pat rest

/-- Core of `re.sub(r"\s+", " ", text)`: collapse each run of whitespace to a
single space.  The boolean records whether the previous character was part of
a whitespace run already emitted. -/
def collapseGo : Bool → List Char → List Char
  | _, [] => []
  | prevSpace, c :: rest =>
    if isPySpace c then
      if prevSpace then collapseGo true rest
      else ' ' :: collapseGo true rest
    else c :: collapseGo false rest

/-- `_clean_text`: `re.sub(r"\s+", " ", text).strip()`. -/
def clean_text (s : String) : String :=
  pyStrip (String.mk (collapseGo false s.data))

/-- A sibling node as seen by the section extractors: its tag name
(`getattr(sib, "name", None)`), its `get_text(" ", strip=True)` text, and
the `get_text(" ", strip=True)` texts of its `<li>` descendants. -/
structure Sib where
  name : Option String
  text : String
  liTexts : List String
deriving DecidableEq

/-- `sib.name in {"h2", "h3", "h4"}`. -/
def isHeadingName (n : Option String) : Bool :=
  n = some "h2" || n = some "h3" || n = some "h4"

/-- One element of `soup.find_all(["h2", "h3", "h4"])`: its
`get_text(" ", strip=True)` text and its `find_next_siblings()` list. -/
structure Heading where
  text : String
  siblings : List Sib
deriving DecidableEq

/-- The answers BeautifulSoup would give on a parsed HTML document.
`selectOne sel` is the `get_text(" ", strip=True)` of `soup.select_one(sel)`
(none when there is no match); `selectAll sel` the same for every match of
`soup.select(sel)`; `metaContent by key` is the `content` attribute of
`soup.find("meta", attrs={by: key})` (none when the element or the attribute
is absent); `headings` is `find_all(["h2","h3","h4"])`; `anchorHrefs` the
`href` attribute of every `<a href=...>` left after script/style/noscript/
iframe subtrees are decomposed, in document order; `rawMainText` the
`get_text(" ", strip=True)` of the first of main/article/body/document after
that decomposition. -/
structure Soup where
  selectOne : String → Option String
  selectAll : String → List String
  metaContent : String → String → Option String
  headings : List Heading
  anchorHrefs : List String
  rawMainText : String

/-- `_extract_text`: `el.get_text(" ", strip=True) if el else ""`. -/
def extract_text (soup : Soup) (selector : String) : String :=
  (soup.selectOne selector).getD ""

/-- `_extract_meta`: returns the stripped `content` attribute when the meta
element exists and its `content` is non-empty, else `""`. -/
def extract_meta (soup : Soup) (key : String) (by_ : String := "property") : String :=
  match soup.metaContent by_ key with
  | some c => if c = "" then "" else pyStrip c
  | none => ""

/-- The link-collection loop of `_extract_html_content`: resolve each href,
skip ones already collected, stop once fifty links are collected.  `links`
is the accumulator (the code's `seen` set always holds exactly the elements
of `links`). -/
def linksGo (resolve : String → String) : List String → List String → List String
  | [], links => links
  | h :: rest, links =>
    let href := resolve h
    if links.contains href then linksGo resolve rest links
    else
      let links2 := links ++ [href]
      if 50 ≤ links2.length then links2 else linksGo resolve rest links2

/-- An `"html"`-typed extraction record. -/
structure HtmlRecord where
  type : String
  url : String
  title : String
  description : String
  text : String
  text_length : Nat
  links : List String
deriving DecidableEq

/-- `_extract_html_content`.  `urljoin base href` models
`urllib.parse.urljoin`. -/
def extract_html_content (urljoin : String → String → String)
    (soup : Soup) (url : String) : HtmlRecord :=
  let title := pyOr (extract_text soup "title") (extract_text soup "h1")
  let description := pyOr (extract_meta soup "description" "name")
    (extract_meta soup "og:description")
  let text := clean_text soup.rawMainText
  let links := linksGo (urljoin url) soup.anchorHrefs []
  { type := "html", url := url, title := title, description := description,
    text := text, text_length := text.length, links := links }

/-- `_extract_pdf_text` after pypdf: keep pages whose extracted text is not
whitespace-only, join with newlines, collapse whitespace. -/
def extract_pdf_text (pages : List String) : String :=
  clean_text (String.intercalate "\n" (pages.filter (fun p => pyStrip p ≠ "")))

/-- `_extract_docx_text` after python-docx: keep paragraphs whose text is not
whitespace-only, join with newlines, collapse whitespace. -/
def extract_docx_text (paras : List String) : String :=
  clean_text (String.intercalate "\n" (paras.filter (fun p => pyStrip p ≠ "")))

/-- The raw payload handed to `_extract_file_content`: its UTF-8 decode
(`errors="ignore"`), and the page / paragraph texts the PDF and DOCX
libraries would extract from it. -/
structure FileData where
  decoded : String
  pdfPages : List String
  docxParas : List String

/-- The record returned by `_extract_file_content`: either a flat
`{type, source, text, text_length}` record or (for sniffed HTML) the record
of `_extract_html_content` with its `type` overridden to `"html-file"`. -/
inductive FileRecord where
  | plain (type source text : String) (text_length : Nat)
  | page (r : HtmlRecord)
deriving DecidableEq

/-- The `text` field of a file record. -/
def FileRecord.textOf : FileRecord → String
  | .plain _ _ t _ => t
  | .page r => r.text

/-- The `text_length` field of a file record. -/
def FileRecord.textLenOf : FileRecord → Nat
  | .plain _ _ _ n => n
  | .page r => r.text_length

/-- `_extract_file_content`: suffix dispatch (query string stripped,
case-insensitive), then HTML sniffing on the decoded bytes, else
`binary-or-unknown`.  `soupOf` models parsing a string with BeautifulSoup. -/
def extract_file_content (urljoin : String → String → String)
    (soupOf : String → Soup) (data : FileData) (source : String) : FileRecord :=
  let path := String.mk (beforeSub ['?'] (pyLower source).data)
  if pyEndsWith path ".pdf" then
    let text := extract_pdf_text data.pdfPages
    .plain "pdf" source text text.length
  else if pyEndsWith path ".docx" then
    let text := extract_docx_text data.docxParas
    .plain "docx" source text text.length
  else
    let text := data.decoded
    if pyEndsWith path ".md" || pyEndsWith path ".markdown" then
      .plain "markdown" source (clean_text text) (clean_text text).length
    else if pyEndsWith path ".txt" || pyEndsWith path ".log" || pyEndsWith path ".csv"
        || pyEndsWith path ".json" || pyEndsWith path ".xml" then
      .plain "text" source (clean_text text) (clean_text text).length
    else if strContains (pyLower text) "<html" || strContains (pyLower text) "<!doctype html" then
      .page { extract_html_content urljoin (soupOf text) source with type := "html-file" }
    else
      .plain "binary-or-unknown" source "" 0

/-- Sibling scan of `_extract_section_list`: stop with `[]` at the first
h2/h3/h4 sibling, stop with the non-empty `<li>` texts at the first ul/ol
sibling, `none` when the siblings run out (the outer loop then moves on to
the next matching heading). -/
def sectionListSibs : List Sib → Option (List String)
  | [] => none
  | sib :: rest =>
    if isHeadingName sib.name then some []
    else if sib.name = some "ul" ∨ sib.name = some "ol" then
      some (sib.liTexts.filter (fun t => t ≠ ""))
    else sectionListSibs rest

/-- Heading loop of `_extract_section_list`. -/
def sectionListLoop (needle : String) : List Heading → List String
  | [] => []
  | h :: rest =>
    if ¬ (pyStartsWith (pyLower h.text) needle) then sectionListLoop needle rest
    else
      match sectionListSibs h.siblings with
      | some r => r
      | none => sectionListLoop needle rest

/-- `_extract_section_list`. -/
def extract_section_list (soup : Soup) (title : String) : List String :=
  sectionListLoop (pyLower (pyStrip title)) soup.headings

/-- Sibling scan of `_extract_section_text`: collect the non-empty text of
each `p` sibling and the `"; "`-joined non-empty `<li>` texts of each ul/ol
sibling (when any survive), stopping at the first h2/h3/h4 sibling. -/
def sectionParts : List Sib → List String
  | [] => []
  | sib :: rest =>
    if isHeadingName sib.name then []
    else
      (if sib.name = some "p" ∧ sib.text ≠ "" then [sib.text] else []) ++
      (if (sib.name = some "ul" ∨ sib.name = some "ol")
          ∧ (sib.liTexts.filter (fun t => t ≠ "")) ≠ [] then
        [String.intercalate "; " (sib.liTexts.filter (fun t => t ≠ ""))]
      else []) ++
      sectionParts rest

/-- Heading loop of `_extract_section_text`: the body runs, and returns, at
the first matching heading. -/
def sectionTextLoop (needle : String) : List Heading → String
  | [] => ""
  | h :: rest =>
    if ¬ (pyStartsWith (pyLower h.text) needle) then sectionTextLoop needle rest
    else pyStrip (String.intercalate " " (sectionParts h.siblings))

/-- `_extract_section_text`. -/
def extract_section_text (soup : Soup) (title : String) : String :=
  sectionTextLoop (pyLower (pyStrip title)) soup.headings

/-- Sibling scan of `_extract_what_is`: collect the non-empty text of each
`p` sibling, stopping at the first h2/h3/h4 sibling.  No other sibling kind
contributes. -/
def whatIsParts : List Sib → List String
  | [] => []
  | sib :: rest =>
    if isHeadingName sib.name then []
    else if sib.name = some "p" ∧ sib.text ≠ "" then sib.text :: whatIsParts rest
    else whatIsParts rest

/-- Heading loop of `_extract_what_is`: the body runs, and returns, at the
first heading whose text starts with `"what is"` case-insensitively. -/
def whatIsLoop : List Heading → String
  | [] => ""
  | h :: rest =>
    if ¬ (pyStartsWith (pyLower h.text) "what is") then whatIsLoop rest
    else pyStrip (String.intercalate " " (whatIsParts h.siblings))

/-- `_extract_what_is`. -/
def extract_what_is (soup : Soup) : String :=
  whatIsLoop soup.headings

/-- The `fallback` mapping handed to `_parse_tool_page` (built by
`_fetch_random_meta`; `.get(key, "")` on the relevant keys). -/
structure Fallback where
  name : String
  short_description : String
  website_url : String
deriving DecidableEq

/-- The record `_parse_tool_page` returns on success. -/
structure ToolRecord where
  name : String
  description : String
  url : String
  website_url : String
  what_is : String
  key_features : List String
  pros : List String
  cons : List String
  who_uses : String
  og_image : String
deriving DecidableEq

/-- `_parse_tool_page`: raises (`Except.error`) exactly when the description
chain resolves to the empty string. -/
def parse_tool_page (soup : Soup) (fallback : Fallback) (url : String) :
    Except String ToolRecord :=
  let name := pyOr (extract_text soup "h1")
    (pyOr (extract_meta soup "og:title") fallback.name)
  let description := pyOr (extract_meta soup "og:description")
    (pyOr (extract_meta soup "description" "name") fallback.short_description)
  if description = "" then Except.error "Tool page has no description"
  else Except.ok {
    name := name, description := description, url := url,
    website_url := fallback.website_url,
    what_is := extract_what_is soup,
    key_features := extract_section_list soup "Key Features",
    pros := extract_section_list soup "Pros",
    cons := extract_section_list soup "Cons",
    who_uses := extract_section_text soup "Who is Using",
    og_image := extract_meta soup "og:image" }

/-- Whether a tool-page parse succeeded. -/
def toolParseOk : Except String ToolRecord → Bool
  | .ok _ => true
  | .error _ => false

/-- The description carried by a tool-page parse result (empty on failure). -/
def toolParseDesc : Except String ToolRecord → String
  | .ok r => r.description
  | .error _ => ""

/-- A JSON value as far as `extract_structured` inspects one: a string, a
list, or anything else (`isinstance` checks on `str` and `list`). -/
inductive JVal where
  | str (s : String)
  | list (xs : List JVal)
  | other

/-- A per-field output of `extract_structured`: a string, a list of strings,
or Python `None`. -/
inductive FieldOut where
  | s (v : String)
  | l (v : List String)
  | null
deriving DecidableEq

/-- The record returned by `extract_structured`. -/
structure StructuredRecord where
  url : String
  fields : List (String × FieldOut)
deriving DecidableEq

/-- The per-field selector dispatch of `extract_structured` (the body of its
schema loop): a string selector yields the first match's text (`""` when
there is no match); a list selector that is non-empty and whose first
element is a string yields the non-empty texts of every match of that first
element; every other shape yields Python `None`. -/
def structuredField (soup : Soup) : JVal → FieldOut
  | .str s => FieldOut.s (extract_text soup s)
  | .list (.str s0 :: _) => FieldOut.l ((soup.selectAll s0).filter (fun t => t ≠ ""))
  | .list _ => FieldOut.null
  | .other => FieldOut.null

/-- `extract_structured` after fetch and parse: dispatch on the shape of each
field's selector.  The schema list preserves the JSON object's key order. -/
def extract_structured (soup : Soup) (url : String)
    (schema : List (String × JVal)) : StructuredRecord :=
  { url := url,
    fields := schema.foldl (fun out kv =>
      out ++ [(kv.1, structuredField soup kv.2)]) [] }

/-- A parsed XML element: tag (with any `{namespace}` part as ElementTree
reports it), its direct text (none when absent), its children. -/
inductive XNode where
  | mk (tag : String) (text : Option String) (children : List XNode)

/-- The tag of an XML element. -/
def XNode.tagOf : XNode → String
  | .mk t _ _ => t

/-- The direct text of an XML element. -/
def XNode.textOf : XNode → Option String
  | .mk _ x _ => x

mutual
/-- `Element.iter()`: the element followed by its descendants, document
order. -/
def iterNodes : XNode → List XNode
  | .mk t x c => XNode.mk t x c :: iterList c

/-- `iter()` over a list of sibling subtrees. -/
def iterList : List XNode → List XNode
  | [] => []
  | n :: ns => iterNodes n ++ iterList ns
end

/-- The record returned by `crawl_sitemap`. -/
structure SitemapRecord where
  sitemap_url : String
  total_urls : Nat
  urls : List String
deriving DecidableEq

/-- The URL-collection loop of `crawl_sitemap`: keep the stripped text of
every node whose lowercased tag ends with `"loc"` and whose text is present
and non-empty. -/
def sitemapUrls (root : XNode) : List String :=
  (iterNodes root).foldl (fun acc node =>
    if pyEndsWith (pyLower node.tagOf) "loc" then
      match node.textOf with
      | some t => if t = "" then acc else acc ++ [pyStrip t]
      | none => acc
    else acc) []

/-- `crawl_sitemap` after download and XML parse: collect, clamp the limit to
[1, 200], report the full count and the limited list. -/
def crawl_sitemap (sitemap_url : String) (limit : Int) (root : XNode) :
    SitemapRecord :=
  let urls := sitemapUrls root
  let limit2 := max 1 (min 200 limit)
  { sitemap_url := sitemap_url, total_urls := urls.length,
    urls := urls.take limit2.toNat }

/-- A record returned by `crawl_url` / `crawl_many`: a parsed HTML record, a
shallow non-HTML record, or the error record `crawl_many` builds when one
URL fails. -/
inductive CrawlRecord where
  | html (r : HtmlRecord)
  | nonHtml (url content_type : String) (size_bytes : Nat)
  | error (url err : String)
deriving DecidableEq

/-- The loop body of `crawl_many`: the try/except around one `crawl_url`
call, converting a failure into an inline error record carrying the URL. -/
def crawlItem (crawlOne : String → Except String CrawlRecord)
    (url : String) : CrawlRecord :=
  match crawlOne url with
  | .ok r => r
  | .error e => CrawlRecord.error url e

/-- `crawl_many`: iterate the first twenty URLs, converting a per-item
failure of `crawl_url` (modelled by `crawlOne`, which may fail with a
message) into an inline error record. -/
def crawl_many (crawlOne : String → Except String CrawlRecord)
    (urls : List String) : List CrawlRecord :=
  (urls.take 20).foldl (fun results url =>
    results ++ [crawlItem crawlOne url]) []

/-! ### Helper notions used by the statements -/

/-- The first non-empty string of a list, `""` when all are empty: the
"first non-empty of" phrasing used throughout the specification. -/
def firstNonEmpty (xs : List String) : String :=
  (xs.find? (fun s => s != "")).getD ""

/-- First-occurrence de-duplication keeping elements not in `seen`:
the specification's "order of first appearance, de-duplicated". -/
def dedupFirst (seen : List String) : List String → List String
  | [] => []
  | x :: xs =>
    if x ∈ seen then dedupFirst seen xs
    else x :: dedupFirst (seen ++ [x]) xs

theorem firstNonEmpty_cons (a : String) (l : List String) :
    firstNonEmpty (a :: l) = if a = "" then firstNonEmpty l else a := by
  by_cases h : a = ""
  · simp [firstNonEmpty, List.find?, h]
  · have hb : (a != "") = true := by simp [h]
    simp [firstNonEmpty, List.find?, hb, h]

theorem firstNonEmpty_nil : firstNonEmpty [] = "" := rfl

theorem firstNonEmpty_single (a : String) : firstNonEmpty [a] = a := by
  rw [firstNonEmpty_cons]
  by_cases h : a = "" <;> simp [h, firstNonEmpty_nil]

theorem pyOr_eq_firstNonEmpty (a b : String) :
    pyOr a b = firstNonEmpty [a, b] := by
  rw [firstNonEmpty_cons, firstNonEmpty_single]
  by_cases h : a = "" <;> simp [pyOr, h]

theorem pyOr3_eq_firstNonEmpty (a b c : String) :
    pyOr a (pyOr b c) = firstNonEmpty [a, b, c] := by
  rw [firstNonEmpty_cons, ← pyOr_eq_firstNonEmpty]
  by_cases h : a = "" <;> simp [pyOr, h]

/-! ### C1: `text_length` always equals the length of `text` -/

/-- C1.  Every record produced by the HTML extractor or by the file
extractor (pdf, docx, markdown, text, html-file, binary-or-unknown) carries
a `text_length` equal to the character count of its `text`. -/
theorem text_length_invariant (urljoin : String → String → String)
    (soup : Soup) (url : String) (soupOf : String → Soup)
    (data : FileData) (source : String) :
    (extract_html_content urljoin soup url).text_length
      = (extract_html_content urljoin soup url).text.length
    ∧ (extract_file_content urljoin soupOf data source).textLenOf
      = (extract_file_content urljoin soupOf data source).textOf.length := by
  refine ⟨rfl, ?_⟩
  simp only [extract_file_content]
  repeat' split
  all_goals rfl

/-! ### C3: order of the `title` fallback chain -/

/-- A document whose `<title>` text is `"T"` and whose `<h1>` text is
`"H"`; every other query comes back empty. -/
def soupTitleBoth : Soup :=
  { selectOne := fun sel =>
      if sel = "title" then some "T" else if sel = "h1" then some "H" else none,
    selectAll := fun _ => [],
    metaContent := fun _ _ => none,
    headings := [],
    anchorHrefs := [],
    rawMainText := "" }

/-- C3 counterexample.  On a document with both a non-empty `<h1>` (`"H"`)
and a non-empty `<title>` (`"T"`), the extractor's `title` is not the first
non-empty of h1-then-title (it is `"T"`, the `<title>` text, because the
code consults `<title>` first). -/
theorem title_order_cx :
    (extract_html_content (fun _ h => h) soupTitleBoth "u").title
      ≠ firstNonEmpty [extract_text soupTitleBoth "h1",
          extract_text soupTitleBoth "title"] := by
  decide

/-- C3 amended.  The `title` field is the first non-empty of, in this
order: the `<title>` element's text, then the `<h1>` element's text. -/
theorem title_fallback_order (urljoin : String → String → String)
    (soup : Soup) (url : String) :
    (extract_html_content urljoin soup url).title
      = firstNonEmpty [extract_text soup "title", extract_text soup "h1"] := by
  simp [extract_html_content, pyOr_eq_firstNonEmpty]

/-! ### C4: order of the `description` fallback chain -/

/-- A document with both a `description` meta name (`"MD"`) and an
`og:description` meta property (`"OG"`). -/
def soupDescBoth : Soup :=
  { selectOne := fun _ => none,
    selectAll := fun _ => [],
    metaContent := fun by_ key =>
      if by_ = "name" ∧ key = "description" then some "MD"
      else if by_ = "property" ∧ key = "og:description" then some "OG"
      else none,
    headings := [],
    anchorHrefs := [],
    rawMainText := "" }

/-- C4 counterexample.  On a document carrying both meta tags, the
extractor's `description` is not the first non-empty of
og:description-then-description (it is `"MD"`, the `description` meta name,
because the code consults the meta name first). -/
theorem description_order_cx :
    (extract_html_content (fun _ h => h) soupDescBoth "u").description
      ≠ firstNonEmpty [extract_meta soupDescBoth "og:description",
          extract_meta soupDescBoth "description" "name"] := by
  decide

/-- C4 amended.  The `description` field is the first non-empty of, in this
order: the `description` meta name's content, then the `og:description`
meta property's content. -/
theorem description_fallback_order (urljoin : String → String → String)
    (soup : Soup) (url : String) :
    (extract_html_content urljoin soup url).description
      = firstNonEmpty [extract_meta soup "description" "name",
          extract_meta soup "og:description"] := by
  simp [extract_html_content, pyOr_eq_firstNonEmpty]

/-! ### C2: the `links` list -/

theorem dedupFirst_nodup_disjoint (l : List String) :
    ∀ seen, (dedupFirst seen l).Nodup ∧ ∀ x ∈ dedupFirst seen l, x ∉ seen := by
  induction l with
  | nil => intro seen; simp [dedupFirst]
  | cons a t ih =>
    intro seen
    by_cases h : a ∈ seen
    · simpa [dedupFirst, h] using ih seen
    · have h2 := ih (seen ++ [a])
      simp only [dedupFirst, if_neg h]
      refine ⟨List.nodup_cons.mpr ⟨fun hmem => ?_, h2.1⟩, ?_⟩
      · exact h2.2 a hmem (by simp)
      · intro x hx
        rcases List.mem_cons.mp hx with hxa | hxt
        · exact hxa ▸ h
        · intro hxs
          exact h2.2 x hxt (by simp [hxs])

theorem linksGo_eq (resolve : String → String) (hrefs : List String) :
    ∀ links, links.length < 50 →
      linksGo resolve hrefs links
        = links ++ (dedupFirst links (hrefs.map resolve)).take (50 - links.length) := by
  induction hrefs with
  | nil => intro links hlen; simp [linksGo, dedupFirst]
  | cons a t ih =>
    intro links hlen
    by_cases hc : resolve a ∈ links
    · have hcb : links.contains (resolve a) = true := by simpa using hc
      simp only [linksGo, hcb, List.map_cons, dedupFirst, if_pos hc, if_true]
      exact ih links hlen
    · have hcb : links.contains (resolve a) = false := by simpa using hc
      simp only [linksGo, hcb, List.map_cons, dedupFirst, if_neg hc, Bool.false_eq_true,
        if_false]
      by_cases h50 : 50 ≤ (links ++ [resolve a]).length
      · have h49 : links.length = 49 := by
          simp only [List.length_append, List.length_singleton] at h50; omega
        rw [if_pos h50, h49]
        simp [List.take_succ_cons]
      · rw [if_neg h50]
        have hlt : (links ++ [resolve a]).length < 50 := by omega
        rw [ih (links ++ [resolve a]) hlt]
        have h2 : 50 - links.length = (50 - (links ++ [resolve a]).length) + 1 := by
          simp only [List.length_append, List.length_singleton]; omega
        rw [h2, List.take_succ_cons]
        simp

/-- C2.  The `links` of an HTML record contain no duplicates, never exceed
fifty entries, and are exactly the first-occurrence de-duplication of the
anchors' hrefs resolved against the origin, truncated at fifty — so order
of first appearance is preserved and every entry is a resolved href. -/
theorem links_nodup_capped_ordered (urljoin : String → String → String)
    (soup : Soup) (url : String) :
    (extract_html_content urljoin soup url).links.Nodup
    ∧ (extract_html_content urljoin soup url).links.length ≤ 50
    ∧ (extract_html_content urljoin soup url).links
        = (dedupFirst [] (soup.anchorHrefs.map (urljoin url))).take 50 := by
  have he : (extract_html_content urljoin soup url).links
      = (dedupFirst [] (soup.anchorHrefs.map (urljoin url))).take 50 := by
    show linksGo (urljoin url) soup.anchorHrefs [] = _
    rw [linksGo_eq (urljoin url) soup.anchorHrefs [] (by simp)]
    simp
  refine ⟨?_, ?_, he⟩
  · rw [he]
    exact ((dedupFirst_nodup_disjoint (soup.anchorHrefs.map (urljoin url)) []).1).sublist
      (List.take_sublist 50 _)
  · rw [he]
    simp [List.length_take]

/-! ### C5: structured selector dispatch -/

theorem foldl_append_map {α β : Type _} (f : α → β) (l : List α) (acc : List β) :
    l.foldl (fun out x => out ++ [f x]) acc = acc ++ l.map f := by
  induction l generalizing acc with
  | nil => simp
  | cons a t ih => simp [List.foldl_cons, ih]

/-- A document in which the selector `"a"` has one match of text `"X"`. -/
def soupTwoSelectors : Soup :=
  { selectOne := fun _ => none,
    selectAll := fun sel => if sel = "a" then ["X"] else [],
    metaContent := fun _ _ => none,
    headings := [],
    anchorHrefs := [],
    rawMainText := "" }

/-- C5 counterexample.  A two-element list selector whose first element is a
string is not mapped to a null field value, contrary to the claim: the code
evaluates the first element and returns a list. -/
theorem structured_multi_list_cx :
    (extract_structured soupTwoSelectors "u"
        [("items", JVal.list [JVal.str "a", JVal.str "b"])]).fields
      = [("items", FieldOut.l ["X"])]
    ∧ FieldOut.l ["X"] ≠ FieldOut.null :=
  ⟨rfl, by decide⟩

/-- C5 amended.  Per schema field: a plain-string selector yields the first
match's text or `""`; a non-empty list selector whose first element is a
string yields the non-empty texts of every match of that first element
(however many elements the list has); every other shape — a non-string
non-list value, an empty list, or a list whose first element is not a
string — yields a null field value; the dispatch is a total function, so no
selector shape raises. -/
theorem structured_selector_shapes (soup : Soup) (url : String)
    (schema : List (String × JVal)) :
    (extract_structured soup url schema).url = url
    ∧ (extract_structured soup url schema).fields
        = schema.map (fun kv => (kv.1, structuredField soup kv.2))
    ∧ (∀ s, structuredField soup (JVal.str s) = FieldOut.s (extract_text soup s))
    ∧ (∀ s0 rest, structuredField soup (JVal.list (JVal.str s0 :: rest))
        = FieldOut.l ((soup.selectAll s0).filter (fun t => t ≠ "")))
    ∧ structuredField soup (JVal.list []) = FieldOut.null
    ∧ (∀ x rest, structuredField soup (JVal.list (JVal.list x :: rest)) = FieldOut.null)
    ∧ (∀ rest, structuredField soup (JVal.list (JVal.other :: rest)) = FieldOut.null)
    ∧ structuredField soup JVal.other = FieldOut.null := by
  refine ⟨rfl, ?_, fun s => rfl, fun s0 rest => rfl, rfl,
    fun x rest => rfl, fun rest => rfl, rfl⟩
  show schema.foldl (fun out kv => out ++ [(kv.1, structuredField soup kv.2)]) [] = _
  rw [foldl_append_map (fun kv => (kv.1, structuredField soup kv.2)) schema []]
  simp

/-! ### C6: sitemap URL collection -/

/-- What the sitemap loop keeps of one XML node: the stripped text when the
lowercased tag ends with `"loc"` and the text is present and non-empty. -/
def locOf (n : XNode) : Option String :=
  if pyEndsWith (pyLower n.tagOf) "loc" then
    match n.textOf with
    | some t => if t = "" then none else some (pyStrip t)
    | none => none
  else none

theorem sitemapFold_eq (l : List XNode) :
    ∀ acc : List String,
      l.foldl (fun acc node =>
        if pyEndsWith (pyLower node.tagOf) "loc" then
          match node.textOf with
          | some t => if t = "" then acc else acc ++ [pyStrip t]
          | none => acc
        else acc) acc = acc ++ l.filterMap locOf := by
  induction l with
  | nil => simp
  | cons n t ih =>
    intro acc
    simp only [List.foldl_cons, List.filterMap_cons]
    by_cases h1 : pyEndsWith (pyLower n.tagOf) "loc" = true
    · cases hx : n.textOf with
      | none => simp [locOf, h1, hx, ih]
      | some s =>
        by_cases h2 : s = ""
        · simp [locOf, h1, hx, h2, ih]
        · simp only [locOf, h1, hx, h2, if_true, if_false, ite_false, ite_true]
          rw [ih (acc ++ [pyStrip s])]
          simp [h2]
    · simp [locOf, h1, ih]

theorem sitemapUrls_eq (root : XNode) :
    sitemapUrls root = (iterNodes root).filterMap locOf := by
  simpa using sitemapFold_eq (iterNodes root) []

/-- The document `<urlset><reloc>https://x</reloc></urlset>`. -/
def sitemapDocCx : XNode :=
  XNode.mk "urlset" none [XNode.mk "reloc" (some "https://x") []]

/-- The namespace-stripped local tag name: the part of an ElementTree tag
after its `\x7bnamespace\x7d` part, the whole tag when there is none. -/
def localTag (t : String) : String :=
  String.mk ((beforeSub ['}'] t.data.reverse).reverse)

/-- C6 counterexample.  The code collects the `<reloc>` element — its tag
merely ends with `"loc"` — although no element of the document has a
namespace-stripped local tag name case-insensitively equal to `"loc"`, so
the claim predicts an empty collection. -/
theorem sitemap_endswith_cx :
    (crawl_sitemap "s" 20 sitemapDocCx).total_urls = 1
    ∧ ((iterNodes sitemapDocCx).filter
        (fun n => pyLower (localTag n.tagOf) == "loc")).length = 0 :=
  ⟨rfl, rfl⟩

/-- C6 amended.  For every well-formed XML sitemap, the extractor collects,
in document order, the stripped text of every element whose lowercased tag
(namespace part included) ends with `"loc"` and whose text is present and
non-empty; `total_urls` is the full count and `urls` the prefix of length
`min (clamped limit) total`, the limit clamped to [1, 200]. -/
theorem sitemap_collection (u : String) (limit : Int) (root : XNode) :
    (crawl_sitemap u limit root).total_urls
      = ((iterNodes root).filterMap locOf).length
    ∧ (crawl_sitemap u limit root).urls
        = ((iterNodes root).filterMap locOf).take (max 1 (min 200 limit)).toNat
    ∧ 1 ≤ (max 1 (min 200 limit)).toNat
    ∧ (max 1 (min 200 limit)).toNat ≤ 200
    ∧ (crawl_sitemap u limit root).urls.length
        = min (max 1 (min 200 limit)).toNat (crawl_sitemap u limit root).total_urls := by
  have hu : sitemapUrls root = (iterNodes root).filterMap locOf := sitemapUrls_eq root
  refine ⟨?_, ?_, ?_, ?_, ?_⟩
  · show (sitemapUrls root).length = _
    rw [hu]
  · show (sitemapUrls root).take _ = _
    rw [hu]
  · have h1 : (1 : Int) ≤ max 1 (min 200 limit) := le_max_left _ _
    omega
  · have h2 : max 1 (min 200 limit) ≤ 200 :=
      max_le (by norm_num) (min_le_left _ _)
    omega
  · show ((sitemapUrls root).take _).length = _
    simp only [List.length_take]
    rfl

/-! ### C7 and C10: batch crawling -/

/-- C7.  The batch crawl is a total function of the per-URL outcomes: it
maps over the URLs it processes one by one, producing one record per
processed input, so a failing URL cannot abort the batch; a failure becomes
an error record carrying that URL and message, a success its record. -/
theorem crawl_many_isolates_failures
    (crawlOne : String → Except String CrawlRecord) (urls : List String) :
    crawl_many crawlOne urls = (urls.take 20).map (crawlItem crawlOne)
    ∧ (crawl_many crawlOne urls).length = min urls.length 20
    ∧ (∀ u e, crawlItem (fun _ => Except.error e) u = CrawlRecord.error u e)
    ∧ (∀ u r, crawlItem (fun _ => Except.ok r) u = r) := by
  have hmap : crawl_many crawlOne urls = (urls.take 20).map (crawlItem crawlOne) := by
    show (urls.take 20).foldl (fun results url => results ++ [crawlItem crawlOne url]) [] = _
    rw [foldl_append_map (crawlItem crawlOne) (urls.take 20) []]
    simp
  refine ⟨hmap, ?_, fun u e => rfl, fun u r => rfl⟩
  rw [hmap]
  simp [List.length_take, Nat.min_comm]

/-- C10.  The batch crawl truncates its input to the first twenty URLs: the
output has length `min (length urls) 20` and is unchanged by truncating the
input to its first twenty elements, so an input past the twentieth
contributes no record of any kind. -/
theorem crawl_many_first_twenty
    (crawlOne : String → Except String CrawlRecord) (urls : List String) :
    (crawl_many crawlOne urls).length = min urls.length 20
    ∧ crawl_many crawlOne urls = crawl_many crawlOne (urls.take 20) := by
  have hmap : ∀ us : List String,
      crawl_many crawlOne us = (us.take 20).map (crawlItem crawlOne) := by
    intro us
    show (us.take 20).foldl (fun results url => results ++ [crawlItem crawlOne url]) [] = _
    rw [foldl_append_map (crawlItem crawlOne) (us.take 20) []]
    simp
  constructor
  · rw [hmap urls]
    simp [List.length_take, Nat.min_comm]
  · rw [hmap urls, hmap (urls.take 20), List.take_take]
    norm_num

/-! ### C8: the `what_is` section -/

theorem whatIsParts_eq (sibs : List Sib) :
    whatIsParts sibs
      = (sibs.takeWhile (fun s => !(isHeadingName s.name))).filterMap
          (fun s => if s.name = some "p" ∧ s.text ≠ "" then some s.text else none) := by
  induction sibs with
  | nil => rfl
  | cons sib rest ih =>
    by_cases h1 : isHeadingName sib.name = true
    · simp [whatIsParts, List.takeWhile, h1]
    · have h1b : isHeadingName sib.name = false := by simpa using h1
      have hp : isHeadingName (some "p") = false := by decide
      by_cases h2 : sib.name = some "p" ∧ sib.text ≠ ""
      · simp [whatIsParts, List.takeWhile, List.filterMap_cons, h1b, h2, hp, ih]
      · simp [whatIsParts, List.takeWhile, List.filterMap_cons, h1b, h2, ih]

theorem whatIsLoop_eq (hs : List Heading) :
    whatIsLoop hs
      = ((hs.find? (fun h => pyStartsWith (pyLower h.text) "what is")).map
          (fun h => pyStrip (String.intercalate " " (whatIsParts h.siblings)))).getD "" := by
  induction hs with
  | nil => rfl
  | cons h rest ih =>
    by_cases hc : pyStartsWith (pyLower h.text) "what is" = true
    · simp [whatIsLoop, List.find?, hc]
    · simp [whatIsLoop, List.find?, hc, ih]

/-- A tool page with one matching heading followed by a paragraph of text
`"A"` and a list with one item `"B"`. -/
def soupWhatIsCx : Soup :=
  { selectOne := fun _ => none,
    selectAll := fun _ => [],
    metaContent := fun _ _ => none,
    headings := [{ text := "What is Foo",
                   siblings := [{ name := some "p", text := "A", liTexts := [] },
                                { name := some "ul", text := "B", liTexts := ["B"] }] }],
    anchorHrefs := [],
    rawMainText := "" }

/-- C8 counterexample.  On a "what is" section holding a paragraph and a
list, `_extract_what_is` returns only the paragraph text (`"A"`), while the
narrative-section rule — `_extract_section_text` anchored at the same
heading, which the claim says computes `what_is` — returns `"A B"`. -/
theorem what_is_ignores_lists_cx :
    extract_what_is soupWhatIsCx = "A"
    ∧ extract_section_text soupWhatIsCx "what is" = "A B"
    ∧ extract_what_is soupWhatIsCx ≠ extract_section_text soupWhatIsCx "what is" :=
  ⟨rfl, rfl, by decide⟩

/-- C8 amended.  `what_is` is anchored at the first h2/h3/h4 heading whose
text starts with "what is" case-insensitively; its text accumulates the
non-empty texts of the paragraph siblings only, joined by single spaces,
stopping at the next h2/h3/h4 heading — list siblings contribute nothing. -/
theorem what_is_paragraphs_only (soup : Soup) :
    extract_what_is soup
      = ((soup.headings.find? (fun h => pyStartsWith (pyLower h.text) "what is")).map
          (fun h => pyStrip (String.intercalate " "
            ((h.siblings.takeWhile (fun s => !(isHeadingName s.name))).filterMap
              (fun s => if s.name = some "p" ∧ s.text ≠ "" then some s.text
                else none))))).getD "" := by
  show whatIsLoop soup.headings = _
  rw [whatIsLoop_eq]
  simp only [whatIsParts_eq]

/-! ### C9: the tool-detail description is mandatory -/

/-- C9.  The tool-detail parse fails (with the no-description error) exactly
when the chain og:description → meta description → caller fallback resolves
to the empty string, whatever the rest of the page holds; on success the
record's description is that first non-empty value. -/
theorem tool_description_mandatory (soup : Soup) (fb : Fallback) (url : String) :
    toolParseOk (parse_tool_page soup fb url)
      = !(firstNonEmpty [extract_meta soup "og:description",
          extract_meta soup "description" "name", fb.short_description] == "")
    ∧ toolParseDesc (parse_tool_page soup fb url)
      = firstNonEmpty [extract_meta soup "og:description",
          extract_meta soup "description" "name", fb.short_description] := by
  rw [← pyOr3_eq_firstNonEmpty]
  simp only [parse_tool_page]
  by_cases h : pyOr (extract_meta soup "og:description")
      (pyOr (extract_meta soup "description" "name") fb.short_description) = ""
  · simp [h, toolParseOk, toolParseDesc]
  · simp [h, toolParseOk, toolParseDesc]

end Crawler
